import Mathlib

set_option maxHeartbeats 1000000

/-!
Shallow embedding of the cart/order consistency subsystem of the
buyfusionecommerce backend: the Cart and Order mongoose models
(cart.model.js, the order schema of the models file), the cart service
(CartService), the order functions of the order service (createOrder,
getUserOrders, getOrderDetails) and the Razorpay payment verification
flow (payment controller and payment.service.js).

Conventions of the embedding:
- Mongo ObjectIds are modelled as Nat; the isValidObjectId guards of
  the services are therefore always satisfied and are not represented.
- JS numbers holding prices, stock and stored quantities are modelled
  as Nat (the schemas require them nonnegative); request quantities
  arrive as Int so that the positive-integer guards are meaningful.
- A mongoose transaction is modelled by running the whole body as a
  pure computation: commitTransaction yields the new store, while
  abortTransaction yields the store that was current when the
  transaction started, so an operation that fails returns the original
  store unchanged.
- Errors thrown with a status field (the services' typed error
  classes) are distinguished from plain JS Error values, because every
  service rethrows a caught plain error as one generic typed error
  (the "error.status ? error : new XError(...)" pattern).
- Mongoose runs document validation before user pre-save hooks, so a
  save is modelled as schema validation followed by the pre-save hook.
-/

/-- A document of the Product collection (productSchema); only the
fields read by the cart/order flows are kept.  The seller reference is
declared in the schema under the path named seller. -/
structure Product where
  pid : Nat
  name : String
  price : Nat
  stock : Nat
  isActive : Bool
  isDeleted : Bool
  seller : Nat
deriving DecidableEq, Repr

/-- One line item of a cart (the items subdocument of CartSchema). -/
structure CartItem where
  productId : Nat
  name : String
  price : Nat
  quantity : Nat
  totalPrice : Nat
deriving DecidableEq, Repr

/-- A document of the Cart collection (CartSchema). -/
structure Cart where
  userId : Nat
  items : List CartItem
  totalAmount : Nat
  isDeleted : Bool
deriving DecidableEq, Repr

/-- Typed service errors: the error classes carrying an HTTP status
that the services throw (BadRequestError, NotFoundError,
ForbiddenError) plus plain untyped errors rethrown as 500-style
internal errors. -/
inductive SvcErr where
  | badRequest (msg : String)
  | notFound (msg : String)
  | forbidden (msg : String)
  | internal (msg : String)
deriving DecidableEq, Repr

/-- An error raised inside a transaction body: either one of the typed
service errors, or a plain JS Error (as thrown by mongoose hooks and
validators), which has no status field. -/
inductive TxErr where
  | typed (e : SvcErr)
  | plain (msg : String)
deriving DecidableEq, Repr

/-- The catch-block policy "throw error.status ? error : fallback". -/
def wrapTx (fallback : SvcErr) : TxErr → SvcErr
  | .typed e => e
  | .plain _ => fallback

/-- Sum of the totalPrice fields, as computed by
items.reduce((sum, item) => sum + item.totalPrice, 0). -/
def computeItemsTotal (items : List CartItem) : Nat :=
  items.foldl (fun sum it => sum + it.totalPrice) 0

/-- Product.findOne with filters _id, isActive true, isDeleted false. -/
def availableFind (catalog : List Product) (pid : Nat) : Option Product :=
  catalog.find? (fun p => p.pid == pid && p.isActive && !p.isDeleted)

/-- The pre-save hook query Product.find over the item ids with the
isActive and isDeleted filters. -/
def availableProducts (catalog : List Product) (pids : List Nat) : List Product :=
  catalog.filter (fun p => p.isActive && !p.isDeleted && pids.contains p.pid)

/-- The per-item loop of the cart pre-save hook: finds each item's
product among the fetched ones, rejects insufficient stock, and
rewrites price and totalPrice from the product's current price. -/
def validateItems (ps : List Product) : List CartItem → Except String (List CartItem)
  | [] => .ok []
  | it :: rest =>
    match ps.find? (fun p => p.pid == it.productId) with
    | none => .error ("Product " ++ toString it.productId ++ " not found")
    | some p =>
      if p.stock < it.quantity then
        .error ("Insufficient stock for product " ++ p.name)
      else
        match validateItems ps rest with
        | .error e => .error e
        | .ok rest' =>
          .ok ({ it with price := p.price, totalPrice := p.price * it.quantity } :: rest')

/-- Schema validation of a cart document: the duplicate-product
validator on the items array (Set(ids).size must equal ids.length) and
the quantity minimum of 1. -/
def cartValidate (c : Cart) : Except String Cart :=
  let pids := c.items.map (fun it => it.productId)
  if pids.dedup.length != pids.length then
    .error "Duplicate products are not allowed in cart"
  else if c.items.any (fun it => it.quantity == 0) then
    .error "Quantity must be at least 1"
  else .ok c

/-- The CartSchema pre-save hook: fetches all referenced products that
are active and not deleted, fails if any item's product is missing
from that fetch, fails on insufficient stock, rewrites each item's
price from the catalog and recomputes totalAmount. -/
def cartPreSave (catalog : List Product) (c : Cart) : Except String Cart :=
  let pids := c.items.map (fun it => it.productId)
  let ps := availableProducts catalog pids
  if ps.length != pids.length then
    .error "One or more products are unavailable"
  else
    match validateItems ps c.items with
    | .error e => .error e
    | .ok items' => .ok { c with items := items', totalAmount := computeItemsTotal items' }

/-- cart.save: schema validation, then the pre-save hook. -/
def cartSave (catalog : List Product) (c : Cart) : Except String Cart :=
  match cartValidate c with
  | .error e => .error e
  | .ok c₁ => cartPreSave catalog c₁

/-- The findIndex-then-merge-or-push body of CartSchema.methods.addItem:
the first line with the given product id gets the summed quantity and
the refreshed price; if none exists a new line is pushed at the end. -/
def addItemMerge (pprice : Nat) (pname : String) (pid q : Nat) :
    List CartItem → List CartItem
  | [] => [{ productId := pid, name := pname, price := pprice, quantity := q,
             totalPrice := pprice * q }]
  | it :: rest =>
    if it.productId == pid then
      { it with
        quantity := it.quantity + q, price := pprice,
        totalPrice := pprice * (it.quantity + q) } :: rest
    else it :: addItemMerge pprice pname pid q rest

/-- CartSchema.methods.addItem.  The name and price arguments passed by
the service are accepted but unused, exactly as in the source, which
refetches the product itself. -/
def Cart.addItem (catalog : List Product) (c : Cart) (productId : Nat)
    (_nm : String) (_pr : Nat) (quantity : Nat) : Except String Cart :=
  match availableFind catalog productId with
  | none => .error "Product not found or unavailable"
  | some product =>
    if product.stock < quantity then
      .error ("Insufficient stock for product " ++ product.name)
    else
      let items' := addItemMerge product.price product.name productId quantity c.items
      cartSave catalog { c with items := items', totalAmount := computeItemsTotal items' }

/-- Cart.findOne with filters userId and isDeleted false. -/
def findLiveCart (carts : List Cart) (uid : Nat) : Option Cart :=
  carts.find? (fun c => c.userId == uid && !c.isDeleted)

/-- Persisting a saved cart document: the first live cart of the user
is overwritten in place; a freshly constructed cart is appended. -/
def replaceLive (uid : Nat) (c : Cart) : List Cart → List Cart
  | [] => [c]
  | h :: t => if h.userId == uid && !h.isDeleted then c :: t else h :: replaceLive uid c t

/-- The splice(itemIndex, 1) removal: drops the first line with the
given product id. -/
def removeFirst (pid : Nat) : List CartItem → List CartItem
  | [] => []
  | it :: rest => if it.productId == pid then rest else it :: removeFirst pid rest

/-- The in-place quantity update of updateCartItemQuantity: the first
line with the given product id gets the new quantity, the refreshed
price and the recomputed totalPrice. -/
def setQuantityFirst (pid newPrice newQty : Nat) : List CartItem → List CartItem
  | [] => []
  | it :: rest =>
    if it.productId == pid then
      { it with
        quantity := newQty, price := newPrice,
        totalPrice := newPrice * newQty } :: rest
    else it :: setQuantityFirst pid newPrice newQty rest

/-- Truthiness of an optional JS string: undefined and the empty
string are falsy. -/
def truthy : Option String → Bool
  | none => false
  | some s => s != ""

/-- An address block of an order; all five sub-fields are optional. -/
structure Address where
  street : Option String
  city : Option String
  state : Option String
  zip : Option String
  country : Option String
deriving DecidableEq, Repr

/-- Object.keys(address).length greater than 0: some sub-field is set. -/
def Address.present (a : Address) : Bool :=
  a.street.isSome || a.city.isSome || a.state.isSome || a.zip.isSome || a.country.isSome

/-- The empty address block. -/
def Address.emptyAddr : Address := ⟨none, none, none, none, none⟩

/-- One captured line of an order (the products subdocument of the
order schema): product reference, quantity, per-unit price at order
time and seller reference.  sellerId is optional here because the
order service copies it from an undefined property read. -/
structure OrderLine where
  productId : Nat
  quantity : Nat
  price : Nat
  sellerId : Option Nat
deriving DecidableEq, Repr

/-- A document of the Order collection (the order schema). -/
structure Order where
  oid : Nat
  userId : Nat
  products : List OrderLine
  shippingAddress : Address
  billingAddress : Address
  paymentMethod : String
  razorpayOrderId : Option String
  razorpayPaymentId : Option String
  razorpaySignature : Option String
  totalAmount : Nat
  paymentStatus : String
  status : String
  isDeleted : Bool
deriving DecidableEq, Repr

/-- A document of the User collection; only the email is relevant to
the order confirmation flow. -/
structure User where
  uid : Nat
  email : Option String
deriving DecidableEq, Repr

/-- The paymentMethod enumeration of the order schema. -/
def paymentMethodEnum : List String := ["razorpay", "paypal", "stripe", "cod"]

/-- The paymentStatus enumeration of the order schema. -/
def paymentStatusEnum : List String := ["pending", "completed", "failed"]

/-- The fulfillment status enumeration of the order schema. -/
def orderStatusEnum : List String := ["pending", "shipped", "delivered", "cancelled"]

/-- Schema validation of an order document: quantity minimum, required
seller reference and the three enumerations. -/
def orderValidate (o : Order) : Except String Order :=
  if o.products.any (fun l => l.quantity == 0) then
    .error "Quantity cannot be less than 1"
  else if o.products.any (fun l => l.sellerId == none) then
    .error "Seller ID is required"
  else if !(paymentMethodEnum.contains o.paymentMethod) then
    .error "Payment method is not a valid enum value"
  else if !(paymentStatusEnum.contains o.paymentStatus) then
    .error "Payment status is not a valid enum value"
  else if !(orderStatusEnum.contains o.status) then
    .error "Order status is not a valid enum value"
  else .ok o

/-- Sum of price times quantity over the captured order lines, as in
the order pre-save hook and the createOrder accumulation. -/
def orderLinesTotal (lines : List OrderLine) : Nat :=
  lines.foldl (fun sum l => sum + l.price * l.quantity) 0

/-- The order schema pre-save hook: recomputes totalAmount from the
captured lines and enforces the all-or-nothing address rule (street,
city and country required whenever any sub-field is present). -/
def orderPreSave (o : Order) : Except String Order :=
  let o' := { o with totalAmount := orderLinesTotal o.products }
  if o'.shippingAddress.present &&
      (!truthy o'.shippingAddress.street || !truthy o'.shippingAddress.city ||
        !truthy o'.shippingAddress.country) then
    .error "All shipping address fields are required if any are provided"
  else if o'.billingAddress.present &&
      (!truthy o'.billingAddress.street || !truthy o'.billingAddress.city ||
        !truthy o'.billingAddress.country) then
    .error "All billing address fields are required if any are provided"
  else .ok o'

/-- order.save: schema validation, then the pre-save hook. -/
def orderSave (o : Order) : Except String Order :=
  match orderValidate o with
  | .error e => .error e
  | .ok o₁ => orderPreSave o₁

/-- The whole backing store touched by the embedded flows. -/
structure DB where
  catalog : List Product
  carts : List Cart
  orders : List Order
  users : List User
  nextOrderId : Nat
deriving DecidableEq, Repr

/-- The cart the service operates on: the user's live cart if one
exists, else a freshly constructed empty cart document. -/
def usedCart (db : DB) (uid : Nat) : Cart :=
  match findLiveCart db.carts uid with
  | some c => c
  | none => { userId := uid, items := [], totalAmount := 0, isDeleted := false }

/-- The transaction body (the try block) of CartService.addItemToCart. -/
def addItemToCartTx (db : DB) (userId productId : Nat) (q : Nat) :
    Except TxErr (Cart × DB) :=
  match availableFind db.catalog productId with
  | none => .error (.typed (.notFound "Product not found or unavailable"))
  | some product =>
    if product.stock < q then
      .error (.typed (.badRequest ("Insufficient stock for product " ++ product.name)))
    else
      let cart := usedCart db userId
      match Cart.addItem db.catalog cart productId product.name product.price q with
      | .error msg => .error (.plain msg)
      | .ok saved => .ok (saved, { db with carts := replaceLive userId saved db.carts })

/-- CartService.addItemToCart.  All writes happen inside one
transaction; any error aborts it, leaving the store unchanged, and a
caught plain error is rethrown as the generic BadRequest. -/
def addItemToCart (db : DB) (userId productId : Nat) (quantity : Int)
    (authUserId : Nat) : Except SvcErr Cart × DB :=
  if quantity ≤ 0 then
    (.error (.badRequest "Quantity must be a positive integer"), db)
  else if userId != authUserId then
    (.error (.forbidden "Unauthorized to modify this cart"), db)
  else
    match addItemToCartTx db userId productId quantity.toNat with
    | .ok (saved, db') => (.ok saved, db')
    | .error e => (.error (wrapTx (.badRequest "Failed to add item to cart") e), db)

/-- The transaction body (the try block) of CartService.removeItemFromCart. -/
def removeItemFromCartTx (db : DB) (userId productId : Nat) :
    Except TxErr (Cart × DB) :=
  match findLiveCart db.carts userId with
  | none => .error (.typed (.notFound "Cart not found"))
  | some cart =>
    if cart.items.all (fun it => it.productId != productId) then
      .error (.typed (.notFound "Item not found in cart"))
    else
      let items' := removeFirst productId cart.items
      let c' := { cart with items := items', totalAmount := computeItemsTotal items' }
      match cartSave db.catalog c' with
      | .error msg => .error (.plain msg)
      | .ok saved => .ok (saved, { db with carts := replaceLive userId saved db.carts })

/-- CartService.removeItemFromCart. -/
def removeItemFromCart (db : DB) (userId productId authUserId : Nat) :
    Except SvcErr Cart × DB :=
  if userId != authUserId then
    (.error (.forbidden "Unauthorized to modify this cart"), db)
  else
    match removeItemFromCartTx db userId productId with
    | .ok (saved, db') => (.ok saved, db')
    | .error e => (.error (wrapTx (.badRequest "Failed to remove item from cart") e), db)

/-- The transaction body (the try block) of
CartService.updateCartItemQuantity. -/
def updateCartItemQuantityTx (db : DB) (userId productId q : Nat) :
    Except TxErr (Cart × DB) :=
  match availableFind db.catalog productId with
  | none => .error (.typed (.notFound "Product not found or unavailable"))
  | some product =>
    if product.stock < q then
      .error (.typed (.badRequest ("Insufficient stock for product " ++ product.name)))
    else
      match findLiveCart db.carts userId with
      | none => .error (.typed (.notFound "Cart not found"))
      | some cart =>
        if cart.items.all (fun it => it.productId != productId) then
          .error (.typed (.notFound "Item not found in cart"))
        else
          let items' := setQuantityFirst productId product.price q cart.items
          let c' := { cart with items := items', totalAmount := computeItemsTotal items' }
          match cartSave db.catalog c' with
          | .error msg => .error (.plain msg)
          | .ok saved => .ok (saved, { db with carts := replaceLive userId saved db.carts })

/-- CartService.updateCartItemQuantity. -/
def updateCartItemQuantity (db : DB) (userId productId : Nat) (quantity : Int)
    (authUserId : Nat) : Except SvcErr Cart × DB :=
  if quantity ≤ 0 then
    (.error (.badRequest "Quantity must be a positive integer"), db)
  else if userId != authUserId then
    (.error (.forbidden "Unauthorized to modify this cart"), db)
  else
    match updateCartItemQuantityTx db userId productId quantity.toNat with
    | .ok (saved, db') => (.ok saved, db')
    | .error e => (.error (wrapTx (.badRequest "Failed to update item quantity") e), db)

/-- The transaction body (the try block) of CartService.clearCart. -/
def clearCartTx (db : DB) (userId : Nat) : Except TxErr DB :=
  match findLiveCart db.carts userId with
  | none => .error (.typed (.notFound "Cart not found"))
  | some cart =>
    let c' := { cart with
                isDeleted := true, items := ([] : List CartItem),
                totalAmount := 0 }
    match cartSave db.catalog c' with
    | .error msg => .error (.plain msg)
    | .ok saved => .ok { db with carts := replaceLive userId saved db.carts }

/-- CartService.clearCart: soft-clears the live cart (isDeleted true,
items emptied, total reset) and saves it. -/
def clearCart (db : DB) (userId authUserId : Nat) : Except SvcErr Unit × DB :=
  if userId != authUserId then
    (.error (.forbidden "Unauthorized to clear this cart"), db)
  else
    match clearCartTx db userId with
    | .ok db' => (.ok (), db')
    | .error e => (.error (wrapTx (.badRequest "Failed to clear cart") e), db)

/-- CartService.getUserCart: a read-only path.  A missing live cart
yields an empty cart object rather than an error; an existing cart has
its unavailable or understocked lines filtered from the visible result
and the visible total recomputed, without writing anything back. -/
def getUserCart (db : DB) (userId authUserId : Nat) : Except SvcErr Cart :=
  if userId != authUserId then
    .error (.forbidden "Unauthorized to view this cart")
  else
    match findLiveCart db.carts userId with
    | none => .ok { userId := userId, items := [], totalAmount := 0, isDeleted := false }
    | some cart =>
      let items' := cart.items.filter (fun it =>
        match db.catalog.find? (fun p => p.pid == it.productId) with
        | none => false
        | some p => p.isActive && !p.isDeleted && it.quantity ≤ p.stock)
      .ok { cart with items := items', totalAmount := computeItemsTotal items' }

/-- Reading the property sellerId from a product document.  The order
service accesses product.sellerId, but productSchema declares the
seller reference under the path named seller, so this property access
yields undefined on every product document. -/
def sellerIdRead (_p : Product) : Option Nat := none

/-- The per-request validation loop of createOrder: positive integer
quantity, product existence via Product.findById (no isActive or
isDeleted filter), then the seller check on the sellerId read. -/
def buildLines (catalog : List Product) : List (Nat × Int) → Except TxErr (List OrderLine)
  | [] => .ok []
  | (pid, q) :: rest =>
    if q < 1 then
      .error (.typed (.badRequest ("Invalid quantity for product " ++ toString pid)))
    else
      match catalog.find? (fun p => p.pid == pid) with
      | none =>
        .error (.typed (.notFound ("Product with ID " ++ toString pid ++ " not found")))
      | some product =>
        match sellerIdRead product with
        | none => .error (.typed (.badRequest ("Product " ++ toString pid ++ " has no seller")))
        | some sid =>
          match buildLines catalog rest with
          | .error e => .error e
          | .ok rest' =>
            .ok ({ productId := product.pid, quantity := q.toNat, price := product.price,
                   sellerId := some sid } :: rest')

/-- Modelled from the spec: the Notification Bridge operation
send(recipient, subject, body).  The concrete implementation
(services/emailService) is not among the sources, only its callers;
per the spec it is an external collaborator that may fail, so its
outcome is passed in as a boolean. -/
def sendEmailResult (emailOk : Bool) : Except String Unit :=
  if emailOk then .ok () else .error "Email send failed"

/-- The transaction body (the try block) of the order service
createOrder: line validation and capture, the order save, then the
confirmation email, all before the commit. -/
def createOrderTx (db : DB) (userId : Nat) (reqs : List (Nat × Int))
    (shippingAddress billingAddress : Address) (paymentMethod : String)
    (emailOk : Bool) : Except TxErr (Order × DB) :=
  match buildLines db.catalog reqs with
  | .error e => .error e
  | .ok lines =>
    let newOrder : Order :=
      { oid := db.nextOrderId, userId := userId, products := lines,
        shippingAddress := shippingAddress, billingAddress := billingAddress,
        paymentMethod := paymentMethod, razorpayOrderId := none,
        razorpayPaymentId := none, razorpaySignature := none,
        totalAmount := orderLinesTotal lines, paymentStatus := "pending",
        status := "pending", isDeleted := false }
    match orderSave newOrder with
    | .error msg => .error (.plain msg)
    | .ok saved =>
      let db₁ := { db with
                   orders := db.orders ++ [saved],
                   nextOrderId := db.nextOrderId + 1 }
      match db.users.find? (fun u => u.uid == userId) with
      | some u =>
        if truthy u.email then
          match sendEmailResult emailOk with
          | .ok _ => .ok (saved, db₁)
          | .error msg => .error (.plain msg)
        else .ok (saved, db₁)
      | none => .ok (saved, db₁)

/-- The order service createOrder.  The confirmation email is awaited
inside the transaction, after the order save and before the commit;
any error in the body (the email included) aborts the transaction and
is rethrown, a plain one as an untyped internal error. -/
def createOrder (db : DB) (userId : Nat) (reqs : List (Nat × Int))
    (shippingAddress billingAddress : Address) (paymentMethod : String)
    (emailOk : Bool) : Except SvcErr Order × DB :=
  if reqs.isEmpty then
    (.error (.badRequest "Products array is required and cannot be empty"), db)
  else
    match createOrderTx db userId reqs shippingAddress billingAddress paymentMethod emailOk with
    | .ok (o, db') => (.ok o, db')
    | .error e => (.error (wrapTx (.internal "Error creating order") e), db)

/-- The order service getUserOrders: the stored order documents of the
user, soft-deleted ones excluded, paginated.  The populate step only
projects live name and price into the product references; the stored
line prices and the stored totalAmount are returned as they are. -/
def getUserOrders (db : DB) (userId page limit : Nat) : List Order :=
  ((db.orders.filter (fun o => o.userId == userId && !o.isDeleted)).drop
    ((page - 1) * limit)).take limit

/-- The order service getOrderDetails: Order.findOne on id, owner and
the soft-delete flag.  As with getUserOrders, the stored line prices
and totalAmount are returned unchanged. -/
def getOrderDetails (db : DB) (userId orderId : Nat) : Except SvcErr Order :=
  match db.orders.find? (fun o => o.oid == orderId && o.userId == userId && !o.isDeleted) with
  | none => .error (.notFound "Order not found")
  | some o => .ok o

/-- paymentService.updatePaymentStatus: findOneAndUpdate on the
razorpay order id, writing the given paymentStatus string without
running validators. -/
def updatePaymentStatus (rz ps : String) : List Order → List Order
  | [] => []
  | o :: rest =>
    if o.razorpayOrderId == some rz then { o with paymentStatus := ps } :: rest
    else o :: updatePaymentStatus rz ps rest

/-- The controller's Order.findOneAndUpdate on the razorpay order id,
writing the given fulfillment status string without running
validators; returns the updated document when one matched. -/
def setStatusByRzp (rz st : String) : List Order → Option Order × List Order
  | [] => (none, [])
  | o :: rest =>
    if o.razorpayOrderId == some rz then
      (some { o with status := st }, { o with status := st } :: rest)
    else
      let r := setStatusByRzp rz st rest
      (r.1, o :: r.2)

/-- HTTP outcome of the payment verification endpoint. -/
inductive PayResp where
  | ok200
  | fail400
  | notFound404
deriving DecidableEq, Repr

/-- The payment controller verifyPayment.  The signature comparison is
an external HMAC computation, modelled by its boolean outcome.  On a
verified payment the order's paymentStatus is set to completed and its
status to shipped; on a failed verification paymentStatus is set to
failed and status to the string "failed".  The confirmation email of
the success branch sits in its own try/catch and cannot change the
outcome, so it is not represented. -/
def verifyPayment (db : DB) (signatureValid : Bool) (rz : String) : PayResp × DB :=
  if signatureValid then
    let orders₁ := updatePaymentStatus rz "completed" db.orders
    match setStatusByRzp rz "shipped" orders₁ with
    | (none, orders₂) => (.notFound404, { db with orders := orders₂ })
    | (some _, orders₂) => (.ok200, { db with orders := orders₂ })
  else
    let orders₁ := updatePaymentStatus rz "failed" db.orders
    match setStatusByRzp rz "failed" orders₁ with
    | (none, orders₂) => (.notFound404, { db with orders := orders₂ })
    | (some _, orders₂) => (.fail400, { db with orders := orders₂ })

/-- The cumulative quantity an addItemToCart call would reach for the
given product: the quantity already recorded on the first matching
line of the cart in use, plus the requested quantity. -/
def cumQty (db : DB) (uid pid : Nat) (q : Int) : Nat :=
  (match (usedCart db uid).items.find? (fun it => it.productId == pid) with
   | some it₀ => it₀.quantity
   | none => 0) + q.toNat

/-- The cart pricing invariant: every line references a product that
is present, active, not soft-deleted and sufficiently stocked in the
catalog, the line price mirrors that product's current price, each
totalPrice is price times quantity, and totalAmount is the sum of the
totalPrice fields. -/
def cartPricedFrom (catalog : List Product) (c : Cart) : Prop :=
  (∀ it ∈ c.items, ∃ p ∈ catalog, p.pid = it.productId ∧ p.isActive = true ∧
      p.isDeleted = false ∧ it.quantity ≤ p.stock ∧ it.price = p.price ∧
      it.totalPrice = it.price * it.quantity)
  ∧ c.totalAmount = computeItemsTotal c.items

/-- The cart document Cart.addItem hands to save: the merged items
and the recomputed total on top of the cart in use. -/
def mergedCart (db : DB) (uid pid : Nat) (p : Product) (q : Nat) : Cart :=
  { usedCart db uid with
    items := addItemMerge p.price p.name pid q (usedCart db uid).items,
    totalAmount := computeItemsTotal (addItemMerge p.price p.name pid q (usedCart db uid).items) }

/-- Sample order (before save) for the C1 witness. -/
def ordC1pre : Order :=
  { oid := 10, userId := 1, products := [⟨1, 2, 50, some 9⟩],
    shippingAddress := Address.emptyAddr, billingAddress := Address.emptyAddr,
    paymentMethod := "razorpay", razorpayOrderId := none, razorpayPaymentId := none,
    razorpaySignature := none, totalAmount := 0, paymentStatus := "pending",
    status := "pending", isDeleted := false }

/-- The saved form of ordC1pre. -/
def ordC1 : Order := { ordC1pre with totalAmount := 100 }

/-- Sample store for the C1 witness: the catalog price of product 1
has moved to 75 since the order captured 50 per unit. -/
def dbC1 : DB :=
  { catalog := [⟨1, "P1", 75, 5, true, false, 9⟩], carts := [], orders := [ordC1],
    users := [], nextOrderId := 11 }

/-- Sample store for the C2 witness. -/
def dbC2 : DB := ⟨[⟨1, "P1", 100, 5, true, false, 7⟩], [], [], [], 0⟩

/-- The cart stored by the C2 witness call. -/
def cartC2 : Cart := ⟨1, [⟨1, "P1", 100, 2, 200⟩], 200, false⟩

/-- The store after the C2 witness call. -/
def dbC2' : DB := { dbC2 with carts := [cartC2] }

/-- Sample product for the C5 theorem: active, stocked, with seller. -/
def pC5 : Product := ⟨1, "P1", 50, 5, true, false, 9⟩

/-- Complete shipping address for the C5 theorem. -/
def shipC5 : Address := ⟨some "21 Street", some "Pune", none, none, some "IN"⟩

/-- Sample store for the C5 theorem. -/
def dbC5 : DB := ⟨[pC5], [], [], [⟨1, some "u1@mail"⟩], 100⟩

/-- Sample product for the C6 theorem. -/
def pC6 : Product := ⟨2, "P2", 40, 9, true, false, 8⟩

/-- Complete shipping address for the C6 theorem. -/
def shipC6 : Address := ⟨some "5 Ave", some "Delhi", none, none, some "IN"⟩

/-- Sample store for the C6 theorem. -/
def dbC6 : DB := ⟨[pC6], [], [], [⟨3, some "u3@mail"⟩], 7⟩

/-- Sample order for the C7 theorem, pending on both statuses. -/
def ordC7 : Order :=
  ⟨10, 1, [⟨1, 2, 50, some 9⟩], Address.emptyAddr, Address.emptyAddr,
    "razorpay", some "rz1", none, none, 100, "pending", "pending", false⟩

/-- Sample store for the C7 theorem. -/
def dbC7 : DB := ⟨[], [], [ordC7], [], 0⟩

/-- Sample product for the C8 witness: stock 3. -/
def pC8 : Product := ⟨1, "A", 5, 3, true, false, 7⟩

/-- Sample cart for the C8 witness. -/
def cartC8 : Cart := ⟨1, [⟨1, "A", 5, 2, 10⟩], 10, false⟩

/-- Sample store for the C8 witness. -/
def dbC8 : DB := ⟨[pC8], [cartC8], [], [], 0⟩

/-- Sample store for the C10 witness: the only cart of user 1 is
soft-deleted, as after clearCart. -/
def dbC10 : DB := ⟨[⟨1, "A", 5, 3, true, false, 7⟩], [⟨1, [], 0, true⟩], [], [], 0⟩

/-- Catalog for the C3 counterexample: product 1 is active with ample
stock; product 2 has been deactivated. -/
def pC3a : Product := ⟨1, "A", 5, 10, true, false, 7⟩

/-- The deactivated product of the C3 counterexample. -/
def pC3b : Product := ⟨2, "B", 3, 4, false, false, 7⟩

/-- Store for the C3 counterexample: the user's cart holds a line for
the now-inactive product 2. -/
def dbC3 : DB := ⟨[pC3a, pC3b], [⟨1, [⟨2, "B", 3, 1, 3⟩], 3, false⟩], [], [], 0⟩

/-- Product for the C3 witness: stock 4. -/
def pC3w : Product := ⟨1, "W", 5, 4, true, false, 7⟩

/-- Store for the C3 witness: the user's cart already holds 3 units of
product 1. -/
def dbC3w : DB := ⟨[pC3w], [⟨1, [⟨1, "W", 5, 3, 15⟩], 15, false⟩], [], [], 0⟩

/-- Catalog product for the C4 witness: current price 100. -/
def pC4 : Product := ⟨1, "P", 100, 5, true, false, 7⟩

/-- Existing cart line for the C4 witness: stale price 90, quantity 2. -/
def itC4 : CartItem := ⟨1, "P", 90, 2, 180⟩

/-- Stored cart for the C4 witness. -/
def cC4 : Cart := ⟨1, [itC4], 180, false⟩

/-- Store for the C4 witness. -/
def dbC4 : DB := ⟨[pC4], [cC4], [], [], 0⟩

/-- The merged cart the C4 witness call stores. -/
def cartC4 : Cart := ⟨1, [⟨1, "P", 100, 3, 300⟩], 300, false⟩

/-- The store after the C4 witness call. -/
def dbC4' : DB := { dbC4 with carts := [cartC4] }

/-- Active product of the C9 witness. -/
def pC9a : Product := ⟨1, "A", 5, 10, true, false, 7⟩

/-- Deactivated product of the C9 witness. -/
def pC9b : Product := ⟨2, "B", 3, 4, false, false, 7⟩

/-- Store for the C9 witness: the cart holds a valid line for product
1 and a line for the now-inactive product 2. -/
def dbC9 : DB := ⟨[pC9a, pC9b],
  [⟨1, [⟨1, "A", 5, 1, 5⟩, ⟨2, "B", 3, 1, 3⟩], 8, false⟩], [], [], 0⟩

theorem availableFind_some {catalog : List Product} {pid : Nat} {p : Product}
    (h : availableFind catalog pid = some p) :
    p ∈ catalog ∧ p.pid = pid ∧ p.isActive = true ∧ p.isDeleted = false := by
  have hm := List.mem_of_find?_eq_some h
  have hp := List.find?_some h
  simp only [Bool.and_eq_true, beq_iff_eq, Bool.not_eq_true'] at hp
  exact ⟨hm, hp.1.1, hp.1.2, hp.2⟩

theorem mem_availableProducts {catalog : List Product} {pids : List Nat} {p : Product}
    (h : p ∈ availableProducts catalog pids) :
    p ∈ catalog ∧ p.isActive = true ∧ p.isDeleted = false ∧ p.pid ∈ pids := by
  simp only [availableProducts, List.mem_filter, Bool.and_eq_true, Bool.not_eq_true'] at h
  refine ⟨h.1, h.2.1.1, h.2.1.2, ?_⟩
  simpa using h.2.2

theorem validateItems_tripleMap {ps : List Product} {items items' : List CartItem}
    (h : validateItems ps items = .ok items') :
    items'.map (fun it => (it.productId, it.quantity, it.name)) =
      items.map (fun it => (it.productId, it.quantity, it.name)) := by
  induction items generalizing items' with
  | nil =>
    simp only [validateItems] at h
    cases h; rfl
  | cons it rest ih =>
    simp only [validateItems] at h
    cases hf : ps.find? (fun p => p.pid == it.productId) <;> simp only [hf] at h
    · exact absurd h (by simp)
    · split at h
      · exact absurd h (by simp)
      · split at h
        · exact absurd h (by simp)
        · rename_i rest' hr
          cases h
          simp only [List.map_cons, List.cons.injEq]
          exact ⟨trivial, ih hr⟩

theorem validateItems_pids {ps : List Product} {items items' : List CartItem}
    (h : validateItems ps items = .ok items') :
    items'.map (fun it => it.productId) = items.map (fun it => it.productId) := by
  have h2 := congrArg (List.map (fun x : Nat × Nat × String => x.1)) (validateItems_tripleMap h)
  simpa [List.map_map, Function.comp] using h2

theorem validateItems_mem {ps : List Product} {items items' : List CartItem}
    (h : validateItems ps items = .ok items') :
    ∀ it' ∈ items', ∃ p, ps.find? (fun r => r.pid == it'.productId) = some p ∧
      it'.price = p.price ∧ it'.totalPrice = p.price * it'.quantity ∧
      it'.quantity ≤ p.stock := by
  induction items generalizing items' with
  | nil =>
    simp only [validateItems] at h
    cases h
    intro it' h'
    cases h'
  | cons it rest ih =>
    simp only [validateItems] at h
    cases hf : ps.find? (fun p => p.pid == it.productId) <;> simp only [hf] at h
    · exact absurd h (by simp)
    · rename_i p
      split at h
      · exact absurd h (by simp)
      · rename_i hs
        split at h
        · exact absurd h (by simp)
        · rename_i rest' hr
          cases h
          intro it' hmem
          rcases List.mem_cons.mp hmem with h1 | h2
          · subst h1
            exact ⟨p, hf, rfl, rfl, Nat.le_of_not_lt hs⟩
          · exact ih hr it' h2

theorem cartValidate_ok {c c₁ : Cart} (h : cartValidate c = .ok c₁) :
    c₁ = c ∧ (c.items.map (fun it => it.productId)).Nodup ∧
      ∀ it ∈ c.items, it.quantity ≠ 0 := by
  simp only [cartValidate] at h
  split at h
  · exact absurd h (by simp)
  · split at h
    · exact absurd h (by simp)
    · rename_i h1 h2
      cases h
      refine ⟨rfl, ?_, ?_⟩
      · have hd : (c.items.map (fun it => it.productId)).dedup.length =
            (c.items.map (fun it => it.productId)).length := by
          simpa using h1
        have he := (List.dedup_sublist (c.items.map (fun it => it.productId))).eq_of_length hd
        rw [← he]
        exact List.nodup_dedup _
      · intro it hit
        simp only [List.any_eq_true, not_exists, not_and] at h2
        have h3 := h2 it hit
        simpa using h3

theorem mem_replaceLive (uid : Nat) (c : Cart) :
    ∀ carts : List Cart, c ∈ replaceLive uid c carts := by
  intro carts
  induction carts with
  | nil => simp [replaceLive]
  | cons h t ih =>
    simp only [replaceLive]
    split
    · exact List.mem_cons_self _ _
    · exact List.mem_cons_of_mem _ ih

theorem cartPreSave_ok_spec {catalog : List Product} {c saved : Cart}
    (h : cartPreSave catalog c = .ok saved) :
    cartPricedFrom catalog saved ∧ saved.userId = c.userId ∧
      saved.isDeleted = c.isDeleted ∧
      saved.items.map (fun it => (it.productId, it.quantity, it.name)) =
        c.items.map (fun it => (it.productId, it.quantity, it.name)) := by
  simp only [cartPreSave] at h
  split at h
  · exact absurd h (by simp)
  · split at h
    · exact absurd h (by simp)
    · rename_i items' hvi
      cases h
      refine ⟨⟨?_, rfl⟩, rfl, rfl, validateItems_tripleMap hvi⟩
      intro it' hmem
      obtain ⟨p, hfind, hpr, htp, hst⟩ := validateItems_mem hvi it' hmem
      have hp := List.mem_of_find?_eq_some hfind
      have hpid : p.pid = it'.productId := by
        have h4 := List.find?_some hfind
        simpa using h4
      obtain ⟨hcat, hact, hdel, _⟩ := mem_availableProducts hp
      exact ⟨p, hcat, hpid, hact, hdel, hst, hpr, by rw [hpr]; exact htp⟩

theorem cartSave_ok_spec {catalog : List Product} {c saved : Cart}
    (h : cartSave catalog c = .ok saved) :
    cartPricedFrom catalog saved ∧ saved.userId = c.userId ∧
      saved.isDeleted = c.isDeleted ∧
      saved.items.map (fun it => (it.productId, it.quantity, it.name)) =
        c.items.map (fun it => (it.productId, it.quantity, it.name)) ∧
      (saved.items.map (fun it => it.productId)).Nodup ∧
      saved.items.map (fun it => it.productId) = c.items.map (fun it => it.productId) := by
  simp only [cartSave] at h
  split at h
  · exact absurd h (by simp)
  · rename_i c₁ hv
    have hv' := cartValidate_ok hv
    rw [hv'.1] at h
    obtain ⟨h1, h2, h3, h4⟩ := cartPreSave_ok_spec h
    have h5 := congrArg (List.map (fun x : Nat × Nat × String => x.1)) h4
    simp only [List.map_map] at h5
    have h6 : saved.items.map (fun it => it.productId) =
        c.items.map (fun it => it.productId) := by
      simpa [Function.comp] using h5
    refine ⟨h1, h2, h3, h4, ?_, h6⟩
    rw [h6]
    exact hv'.2.1

theorem cartAddItem_ok_inv {catalog : List Product} {c : Cart} {pid : Nat}
    {nm : String} {pr q : Nat} {saved : Cart}
    (h : Cart.addItem catalog c pid nm pr q = .ok saved) :
    ∃ p, availableFind catalog pid = some p ∧ q ≤ p.stock ∧
      cartSave catalog { c with
        items := addItemMerge p.price p.name pid q c.items,
        totalAmount := computeItemsTotal (addItemMerge p.price p.name pid q c.items) }
        = .ok saved := by
  simp only [Cart.addItem] at h
  split at h
  · exact absurd h (by simp)
  · rename_i p hf
    split at h
    · exact absurd h (by simp)
    · rename_i hs
      exact ⟨p, hf, Nat.le_of_not_lt hs, h⟩

theorem addItemToCartTx_ok_inv {db : DB} {uid pid q : Nat} {saved : Cart} {db' : DB}
    (h : addItemToCartTx db uid pid q = .ok (saved, db')) :
    ∃ p, availableFind db.catalog pid = some p ∧ q ≤ p.stock ∧
      cartSave db.catalog (mergedCart db uid pid p q) = .ok saved ∧
      db' = { db with carts := replaceLive uid saved db.carts } := by
  simp only [addItemToCartTx] at h
  split at h
  · exact absurd h (by simp)
  · rename_i product hf
    split at h
    · exact absurd h (by simp)
    · rename_i hs
      split at h
      · exact absurd h (by simp)
      · rename_i saved₁ heq
        obtain ⟨p, hf2, hstock, hsave⟩ := cartAddItem_ok_inv heq
        simp only [Except.ok.injEq, Prod.mk.injEq] at h
        obtain ⟨h1, h2⟩ := h
        subst h1
        subst h2
        exact ⟨p, hf2, hstock, hsave, rfl⟩

theorem addItemToCart_ok_inv {db : DB} {uid pid auth : Nat} {q : Int}
    {saved : Cart} {db' : DB}
    (h : addItemToCart db uid pid q auth = (.ok saved, db')) :
    0 < q ∧ addItemToCartTx db uid pid q.toNat = .ok (saved, db') := by
  simp only [addItemToCart] at h
  split at h
  · exact absurd h (by simp)
  · rename_i hq
    split at h
    · exact absurd h (by simp)
    · split at h
      · rename_i saved₁ db₁ heq
        simp only [Prod.mk.injEq, Except.ok.injEq] at h
        obtain ⟨h1, h2⟩ := h
        subst h1
        subst h2
        exact ⟨not_le.mp hq, heq⟩
      · exact absurd h (by simp)

theorem addItemToCart_error_db {db : DB} {uid pid auth : Nat} {q : Int}
    {e : SvcErr} {db' : DB}
    (h : addItemToCart db uid pid q auth = (.error e, db')) : db' = db := by
  simp only [addItemToCart] at h
  split at h
  · simp only [Prod.mk.injEq] at h
    exact h.2.symm
  · split at h
    · simp only [Prod.mk.injEq] at h
      exact h.2.symm
    · split at h
      · exact absurd h (by simp)
      · simp only [Prod.mk.injEq] at h
        exact h.2.symm

theorem updateCartItemQuantityTx_ok_inv {db : DB} {uid pid q : Nat}
    {saved : Cart} {db' : DB}
    (h : updateCartItemQuantityTx db uid pid q = .ok (saved, db')) :
    ∃ p cart, availableFind db.catalog pid = some p ∧ q ≤ p.stock ∧
      findLiveCart db.carts uid = some cart ∧
      cartSave db.catalog { cart with
        items := setQuantityFirst pid p.price q cart.items,
        totalAmount := computeItemsTotal (setQuantityFirst pid p.price q cart.items) }
        = .ok saved ∧
      db' = { db with carts := replaceLive uid saved db.carts } := by
  simp only [updateCartItemQuantityTx] at h
  split at h
  · exact absurd h (by simp)
  · rename_i p hf
    split at h
    · exact absurd h (by simp)
    · rename_i hs
      split at h
      · exact absurd h (by simp)
      · rename_i cart hc
        split at h
        · exact absurd h (by simp)
        · split at h
          · exact absurd h (by simp)
          · rename_i saved₁ hsv
            simp only [Except.ok.injEq, Prod.mk.injEq] at h
            obtain ⟨h1, h2⟩ := h
            subst h1
            subst h2
            exact ⟨p, cart, hf, Nat.le_of_not_lt hs, hc, hsv, rfl⟩

theorem updateCartItemQuantity_ok_inv {db : DB} {uid pid auth : Nat} {q : Int}
    {saved : Cart} {db' : DB}
    (h : updateCartItemQuantity db uid pid q auth = (.ok saved, db')) :
    0 < q ∧ updateCartItemQuantityTx db uid pid q.toNat = .ok (saved, db') := by
  simp only [updateCartItemQuantity] at h
  split at h
  · exact absurd h (by simp)
  · rename_i hq
    split at h
    · exact absurd h (by simp)
    · split at h
      · rename_i saved₁ db₁ heq
        simp only [Prod.mk.injEq, Except.ok.injEq] at h
        obtain ⟨h1, h2⟩ := h
        subst h1
        subst h2
        exact ⟨not_le.mp hq, heq⟩
      · exact absurd h (by simp)

theorem removeItemFromCartTx_ok_inv {db : DB} {uid pid : Nat} {saved : Cart} {db' : DB}
    (h : removeItemFromCartTx db uid pid = .ok (saved, db')) :
    ∃ cart, findLiveCart db.carts uid = some cart ∧
      cartSave db.catalog { cart with
        items := removeFirst pid cart.items,
        totalAmount := computeItemsTotal (removeFirst pid cart.items) } = .ok saved ∧
      db' = { db with carts := replaceLive uid saved db.carts } := by
  simp only [removeItemFromCartTx] at h
  split at h
  · exact absurd h (by simp)
  · rename_i cart hc
    split at h
    · exact absurd h (by simp)
    · split at h
      · exact absurd h (by simp)
      · rename_i saved₁ hsv
        simp only [Except.ok.injEq, Prod.mk.injEq] at h
        obtain ⟨h1, h2⟩ := h
        subst h1
        subst h2
        exact ⟨cart, hc, hsv, rfl⟩

theorem removeItemFromCart_ok_inv {db : DB} {uid pid auth : Nat}
    {saved : Cart} {db' : DB}
    (h : removeItemFromCart db uid pid auth = (.ok saved, db')) :
    removeItemFromCartTx db uid pid = .ok (saved, db') := by
  simp only [removeItemFromCart] at h
  split at h
  · exact absurd h (by simp)
  · split at h
    · rename_i saved₁ db₁ heq
      simp only [Prod.mk.injEq, Except.ok.injEq] at h
      obtain ⟨h1, h2⟩ := h
      subst h1
      subst h2
      exact heq
    · exact absurd h (by simp)

/-- Claim C1: once created, an order's stored totalAmount is invariant
under later Catalog Store price changes: getOrderDetails and
getUserOrders read only the stored order documents, so any replacement
of the catalog leaves their results unchanged, and every saved order's
totalAmount equals the sum of per-unit price times quantity over the
lines frozen in its products array. -/
theorem order_total_frozen (db : DB) (catalog' : List Product)
    (uid oid page limit : Nat) :
    getOrderDetails { db with catalog := catalog' } uid oid = getOrderDetails db uid oid
    ∧ getUserOrders { db with catalog := catalog' } uid page limit =
        getUserOrders db uid page limit
    ∧ ∀ o₀ o, orderSave o₀ = .ok o →
        o.totalAmount = orderLinesTotal o.products := by
  refine ⟨rfl, rfl, ?_⟩
  intro o₀ o h
  simp only [orderSave] at h
  split at h
  · exact absurd h (by simp)
  · rename_i o₁ hv
    have ho₁ : o₁ = o₀ := by
      simp only [orderValidate] at hv
      split at hv
      · exact absurd hv (by simp)
      · split at hv
        · exact absurd hv (by simp)
        · split at hv
          · exact absurd hv (by simp)
          · split at hv
            · exact absurd hv (by simp)
            · split at hv
              · exact absurd hv (by simp)
              · cases hv; rfl
    subst ho₁
    simp only [orderPreSave] at h
    split at h
    · exact absurd h (by simp)
    · split at h
      · exact absurd h (by simp)
      · cases h
        rfl

/-- Witness for C1: a concrete saved order whose captured total of 100
survives the catalog being emptied. -/
theorem order_total_frozen_witness :
    getOrderDetails { dbC1 with catalog := [] } 1 10 = getOrderDetails dbC1 1 10
    ∧ ordC1.totalAmount = orderLinesTotal ordC1.products := by
  have h := order_total_frozen dbC1 [] 1 10 1 10
  exact ⟨h.1, h.2.2 ordC1pre ordC1 (by rfl)⟩

/-- Claim C2: after every successful cart mutation (add, update
quantity, remove) the stored cart is fully repriced from the catalog:
every line references an active, non-deleted catalog product with
sufficient stock, the line price equals that product's current price,
totalPrice is price times quantity, and totalAmount is the sum of the
line totals; the returned cart is the stored one. -/
theorem cart_mutations_priced (db : DB) (uid pid : Nat) (q : Int) :
    (∀ saved db', addItemToCart db uid pid q uid = (.ok saved, db') →
      cartPricedFrom db.catalog saved ∧ saved ∈ db'.carts)
    ∧ (∀ saved db', updateCartItemQuantity db uid pid q uid = (.ok saved, db') →
      cartPricedFrom db.catalog saved ∧ saved ∈ db'.carts)
    ∧ (∀ saved db', removeItemFromCart db uid pid uid = (.ok saved, db') →
      cartPricedFrom db.catalog saved ∧ saved ∈ db'.carts) := by
  refine ⟨?_, ?_, ?_⟩
  · intro saved db' h
    obtain ⟨-, htx⟩ := addItemToCart_ok_inv h
    obtain ⟨p, -, -, hsave, hdb⟩ := addItemToCartTx_ok_inv htx
    refine ⟨(cartSave_ok_spec hsave).1, ?_⟩
    rw [hdb]
    exact mem_replaceLive uid saved db.carts
  · intro saved db' h
    obtain ⟨-, htx⟩ := updateCartItemQuantity_ok_inv h
    obtain ⟨p, cart, -, -, -, hsave, hdb⟩ := updateCartItemQuantityTx_ok_inv htx
    refine ⟨(cartSave_ok_spec hsave).1, ?_⟩
    rw [hdb]
    exact mem_replaceLive uid saved db.carts
  · intro saved db' h
    have htx := removeItemFromCart_ok_inv h
    obtain ⟨cart, -, hsave, hdb⟩ := removeItemFromCartTx_ok_inv htx
    refine ⟨(cartSave_ok_spec hsave).1, ?_⟩
    rw [hdb]
    exact mem_replaceLive uid saved db.carts

/-- Witness for C2: a concrete successful addItemToCart whose stored
cart satisfies the pricing invariant. -/
theorem cart_mutations_priced_witness :
    addItemToCart dbC2 1 1 2 1 = (.ok cartC2, dbC2')
    ∧ cartPricedFrom dbC2.catalog cartC2 ∧ cartC2 ∈ dbC2'.carts := by
  have h := (cart_mutations_priced dbC2 1 1 2).1 cartC2 dbC2' (by rfl)
  exact ⟨by rfl, h.1, h.2⟩

/-- Claim C5 (code bug): with an existing, active product that has a
seller recorded under the schema path seller, a well-formed
createOrder call still fails: the service reads product.sellerId, a
path the product schema does not declare, so the seller check throws
BadRequest "has no seller" and no order is ever created. -/
theorem createOrder_seller_field_mismatch :
    createOrder dbC5 1 [(1, 2)] shipC5 Address.emptyAddr "razorpay" true =
      (.error (.badRequest "Product 1 has no seller"), dbC5)
    ∧ dbC5.catalog = [pC5] ∧ pC5.isActive = true ∧ pC5.isDeleted = false
    ∧ pC5.seller = 9 ∧ sellerIdRead pC5 = none :=
  ⟨rfl, rfl, rfl, rfl, rfl, rfl⟩

/-- Claim C6 (code bug): the confirmation email is awaited inside the
transaction before the commit, and the validation loop in front of it
always fails on the sellerId read, so for a well-formed call no order
is created and the outcome is identical whether the email side effect
would succeed or fail. -/
theorem createOrder_notification_not_after_commit :
    createOrder dbC6 3 [(2, 1)] shipC6 Address.emptyAddr "cod" false =
      (.error (.badRequest "Product 2 has no seller"), dbC6)
    ∧ createOrder dbC6 3 [(2, 1)] shipC6 Address.emptyAddr "cod" true =
      (.error (.badRequest "Product 2 has no seller"), dbC6)
    ∧ dbC6.orders = [] := ⟨rfl, rfl, rfl⟩

/-- Claim C7 (code bug): on a successful verification the payment
callback sets paymentStatus to completed and advances the fulfillment
status to shipped; but on a failed verification it writes the
fulfillment status string "failed", which is neither "cancelled" nor a
member of the order schema's status enumeration. -/
theorem verifyPayment_status_outcomes :
    (verifyPayment dbC7 true "rz1").1 = PayResp.ok200
    ∧ ((verifyPayment dbC7 true "rz1").2.orders.map
        (fun o => (o.paymentStatus, o.status))) = [("completed", "shipped")]
    ∧ (verifyPayment dbC7 false "rz1").1 = PayResp.fail400
    ∧ ((verifyPayment dbC7 false "rz1").2.orders.map
        (fun o => (o.paymentStatus, o.status))) = [("failed", "failed")]
    ∧ orderStatusEnum.contains "failed" = false
    ∧ ("failed" : String) ≠ "cancelled" :=
  ⟨rfl, rfl, rfl, rfl, rfl, by decide⟩

/-- Claim C8: a failing addItemToCart aborts its transaction with no
partial writes: on any error the returned store is the original one,
so the stored cart (and with it every line and the totalAmount) is
unchanged. -/
theorem addItem_failure_leaves_store_unchanged (db : DB) (uid pid auth : Nat)
    (q : Int) (e : SvcErr) (db' : DB)
    (h : addItemToCart db uid pid q auth = (.error e, db')) :
    db' = db ∧ findLiveCart db'.carts uid = findLiveCart db.carts uid := by
  have h1 := addItemToCart_error_db h
  exact ⟨h1, by rw [h1]⟩

/-- Witness for C8: an insufficient-stock failure on a store whose
cart already holds the product; the store survives untouched. -/
theorem addItem_failure_leaves_store_unchanged_witness :
    addItemToCart dbC8 1 1 99 1 =
      (.error (.badRequest "Insufficient stock for product A"), dbC8)
    ∧ dbC8 = dbC8 ∧ findLiveCart dbC8.carts 1 = findLiveCart dbC8.carts 1 := by
  refine ⟨by rfl, ?_⟩
  exact addItem_failure_leaves_store_unchanged dbC8 1 1 1 99
    (.badRequest "Insufficient stock for product A") dbC8 (by rfl)

/-- Claim C10: with no live cart (never created, or soft-cleared by
clearCart), getUserCart by the owner returns the empty cart object
instead of failing, while removeItemFromCart, clearCart and, given an
otherwise valid product and quantity, updateCartItemQuantity all fail
with NotFound "Cart not found". -/
theorem missing_cart_behavior (db : DB) (uid pid : Nat) (q : Int) (p : Product)
    (hnone : findLiveCart db.carts uid = none) :
    getUserCart db uid uid =
      .ok { userId := uid, items := [], totalAmount := 0, isDeleted := false }
    ∧ removeItemFromCart db uid pid uid = (.error (.notFound "Cart not found"), db)
    ∧ clearCart db uid uid = (.error (.notFound "Cart not found"), db)
    ∧ (0 < q → availableFind db.catalog pid = some p → q.toNat ≤ p.stock →
        updateCartItemQuantity db uid pid q uid =
          (.error (.notFound "Cart not found"), db)) := by
  refine ⟨?_, ?_, ?_, ?_⟩
  · simp [getUserCart, hnone]
  · simp [removeItemFromCart, removeItemFromCartTx, hnone, wrapTx]
  · simp [clearCart, clearCartTx, hnone, wrapTx]
  · intro hq hp hs
    have hq' : ¬(q ≤ 0) := not_le.mpr hq
    simp [updateCartItemQuantity, updateCartItemQuantityTx, hnone, hp, wrapTx,
      hq', Nat.not_lt.mpr hs]

/-- Witness for C10: a store whose only cart for the user is
soft-deleted. -/
theorem missing_cart_behavior_witness :
    findLiveCart dbC10.carts 1 = none
    ∧ getUserCart dbC10 1 1 =
        .ok { userId := 1, items := [], totalAmount := 0, isDeleted := false }
    ∧ updateCartItemQuantity dbC10 1 1 2 1 =
        (.error (.notFound "Cart not found"), dbC10) := by
  have h := missing_cart_behavior dbC10 1 1 2 ⟨1, "A", 5, 3, true, false, 7⟩ (by rfl)
  exact ⟨by rfl, h.1, h.2.2.2 (by decide) (by rfl) (by decide)⟩

theorem map_pid_availableProducts_subset {catalog : List Product} {pids : List Nat} :
    ∀ x ∈ (availableProducts catalog pids).map (fun p => p.pid), x ∈ pids := by
  intro x hx
  simp only [List.mem_map] at hx
  obtain ⟨p, hp, rfl⟩ := hx
  exact (mem_availableProducts hp).2.2.2

theorem mem_map_pid_availableProducts {catalog : List Product} {pids : List Nat}
    {pid : Nat} {p : Product} (hf : availableFind catalog pid = some p)
    (hmem : pid ∈ pids) :
    pid ∈ (availableProducts catalog pids).map (fun r => r.pid) := by
  obtain ⟨hcat, hpid, hact, hdel⟩ := availableFind_some hf
  simp only [List.mem_map]
  refine ⟨p, ?_, hpid⟩
  simp only [availableProducts, List.mem_filter]
  refine ⟨hcat, ?_⟩
  simp only [Bool.and_eq_true, Bool.not_eq_true']
  refine ⟨⟨hact, hdel⟩, ?_⟩
  rw [hpid]
  simpa using hmem

theorem availableProducts_length_eq {catalog : List Product} {pids : List Nat}
    (hcat : (catalog.map (fun p => p.pid)).Nodup) (hpids : pids.Nodup)
    (havail : ∀ pid ∈ pids, ∃ p, availableFind catalog pid = some p) :
    (availableProducts catalog pids).length = pids.length := by
  have hs : (availableProducts catalog pids).Sublist catalog := List.filter_sublist _
  have h1 : ((availableProducts catalog pids).map (fun p => p.pid)).Nodup :=
    List.Nodup.sublist (List.Sublist.map (fun p => p.pid) hs) hcat
  have hsub1 : (availableProducts catalog pids).map (fun p => p.pid) ⊆ pids :=
    map_pid_availableProducts_subset
  have hsub2 : pids ⊆ (availableProducts catalog pids).map (fun p => p.pid) := by
    intro x hx
    obtain ⟨p, hp⟩ := havail x hx
    exact mem_map_pid_availableProducts hp hx
  have hle1 := (List.subperm_of_subset h1 hsub1).length_le
  have hle2 := (List.subperm_of_subset hpids hsub2).length_le
  have hle1' : (availableProducts catalog pids).length ≤ pids.length := by
    simpa using hle1
  have hle2' : pids.length ≤ (availableProducts catalog pids).length := by
    simpa using hle2
  exact Nat.le_antisymm hle1' hle2'

theorem find?_availableProducts_eq {pids : List Nat} {pid : Nat} {p : Product}
    {catalog : List Product} :
    availableFind catalog pid = some p → pid ∈ pids →
      (availableProducts catalog pids).find? (fun r => r.pid == pid) = some p := by
  induction catalog with
  | nil => intro h _; simp [availableFind] at h
  | cons x rest ih =>
    intro h hmem
    have hunf : availableProducts (x :: rest) pids =
        if (x.isActive && !x.isDeleted && pids.contains x.pid) = true then
          x :: availableProducts rest pids
        else availableProducts rest pids := by
      simp only [availableProducts, List.filter_cons]
    by_cases ha : (x.pid == pid && x.isActive && !x.isDeleted) = true
    · have hx : x = p := by
        have h2 : List.find? (fun r => r.pid == pid && r.isActive && !r.isDeleted)
            (x :: rest) = some x := List.find?_cons_of_pos _ ha
        have h3 : some x = some p := by
          rw [← h2]
          exact h
        exact Option.some.inj h3
      subst hx
      obtain ⟨hpid, hact, hdel⟩ : x.pid = pid ∧ x.isActive = true ∧ x.isDeleted = false := by
        simp only [Bool.and_eq_true, beq_iff_eq, Bool.not_eq_true'] at ha
        exact ⟨ha.1.1, ha.1.2, ha.2⟩
      have hkeep : (x.isActive && !x.isDeleted && pids.contains x.pid) = true := by
        simp only [Bool.and_eq_true, Bool.not_eq_true']
        exact ⟨⟨hact, hdel⟩, by rw [hpid]; simpa using hmem⟩
      rw [hunf, if_pos hkeep]
      exact List.find?_cons_of_pos _ (by simp [hpid])
    · have h' : availableFind rest pid = some p := by
        have h2 : List.find? (fun r => r.pid == pid && r.isActive && !r.isDeleted)
            (x :: rest) =
            List.find? (fun r => r.pid == pid && r.isActive && !r.isDeleted) rest :=
          List.find?_cons_of_neg rest ha
        simp only [availableFind] at h ⊢
        rw [h2] at h
        exact h
      by_cases hkeep : (x.isActive && !x.isDeleted && pids.contains x.pid) = true
      · have hxpid : (x.pid == pid) = false := by
          cases hxx : (x.pid == pid) with
          | false => rfl
          | true =>
            simp only [Bool.and_eq_true, Bool.not_eq_true'] at hkeep
            have hcon : (x.pid == pid && x.isActive && !x.isDeleted) = true := by
              simp [hxx, hkeep.1.1, hkeep.1.2]
            exact absurd hcon ha
        rw [hunf, if_pos hkeep]
        have hskip : List.find? (fun r => r.pid == pid)
            (x :: availableProducts rest pids) =
            List.find? (fun r => r.pid == pid) (availableProducts rest pids) :=
          List.find?_cons_of_neg _ (by simp [hxpid])
        rw [hskip]
        exact ih h' hmem
      · rw [hunf, if_neg hkeep]
        exact ih h' hmem

theorem validateItems_isOk {ps : List Product} {items : List CartItem} :
    (∀ it ∈ items, ∃ p, ps.find? (fun r => r.pid == it.productId) = some p ∧
      it.quantity ≤ p.stock) →
    ∃ items', validateItems ps items = .ok items' := by
  induction items with
  | nil => intro _; exact ⟨[], rfl⟩
  | cons it rest ih =>
    intro h
    obtain ⟨p, hf, hs⟩ := h it (List.mem_cons_self _ _)
    obtain ⟨rest', hr⟩ := ih (fun x hx => h x (List.mem_cons_of_mem _ hx))
    have hns : ¬(p.stock < it.quantity) := Nat.not_lt.mpr hs
    refine ⟨{ it with price := p.price, totalPrice := p.price * it.quantity } :: rest', ?_⟩
    simp only [validateItems, hf, if_neg hns, hr]

theorem cartSave_isOk {catalog : List Product} {c : Cart}
    (hcat : (catalog.map (fun p => p.pid)).Nodup)
    (hnd : (c.items.map (fun it => it.productId)).Nodup)
    (hq : ∀ it ∈ c.items, it.quantity ≠ 0)
    (hlines : ∀ it ∈ c.items, ∃ p, availableFind catalog it.productId = some p ∧
      it.quantity ≤ p.stock) :
    ∃ saved, cartSave catalog c = .ok saved := by
  have hd : (c.items.map (fun it => it.productId)).dedup =
      c.items.map (fun it => it.productId) := List.dedup_eq_self.mpr hnd
  have hB : (c.items.any (fun it => it.quantity == 0)) = false := by
    cases hcase : c.items.any (fun it => it.quantity == 0) with
    | false => rfl
    | true =>
      simp only [List.any_eq_true] at hcase
      obtain ⟨it, hit, hz⟩ := hcase
      exact absurd (by simpa using hz) (hq it hit)
  have hval : cartValidate c = .ok c := by
    simp [cartValidate, hd, hB]
  have havail : ∀ pid ∈ c.items.map (fun it => it.productId),
      ∃ p, availableFind catalog pid = some p := by
    intro pid hpid
    simp only [List.mem_map] at hpid
    obtain ⟨it, hit, rfl⟩ := hpid
    obtain ⟨p, hf, _⟩ := hlines it hit
    exact ⟨p, hf⟩
  have hlen := availableProducts_length_eq hcat hnd havail
  have hvi : ∀ it ∈ c.items, ∃ p,
      (availableProducts catalog (c.items.map (fun x => x.productId))).find?
        (fun r => r.pid == it.productId) = some p ∧ it.quantity ≤ p.stock := by
    intro it hit
    obtain ⟨p, hf, hs⟩ := hlines it hit
    exact ⟨p, find?_availableProducts_eq hf (List.mem_map_of_mem _ hit), hs⟩
  obtain ⟨items', hok⟩ := validateItems_isOk hvi
  have hcond : ¬(((availableProducts catalog
      (c.items.map (fun it => it.productId))).length !=
      (c.items.map (fun it => it.productId)).length) = true) := by
    simp [hlen]
  refine ⟨{ c with items := items', totalAmount := computeItemsTotal items' }, ?_⟩
  simp only [cartSave, hval]
  simp only [cartPreSave]
  rw [if_neg hcond, hok]

theorem addItemMerge_mem_of_find {pp : Nat} {pn : String} {pid q : Nat}
    {items : List CartItem} {it₀ : CartItem}
    (h : items.find? (fun it => it.productId == pid) = some it₀) :
    ({ it₀ with
       quantity := it₀.quantity + q, price := pp,
       totalPrice := pp * (it₀.quantity + q) } : CartItem) ∈
      addItemMerge pp pn pid q items := by
  induction items with
  | nil => simp at h
  | cons it rest ih =>
    by_cases hx : (it.productId == pid) = true
    · have h2 : List.find? (fun it => it.productId == pid) (it :: rest) = some it :=
        List.find?_cons_of_pos _ hx
      rw [h2] at h
      cases Option.some.inj h
      simp only [addItemMerge, hx, if_true]
      exact List.mem_cons_self _ _
    · have h2 : List.find? (fun it => it.productId == pid) (it :: rest) =
          List.find? (fun it => it.productId == pid) rest :=
        List.find?_cons_of_neg _ hx
      rw [h2] at h
      have hx' : (it.productId == pid) = false := Bool.eq_false_iff.mpr hx
      simp only [addItemMerge, hx', Bool.false_eq_true, if_false]
      exact List.mem_cons_of_mem _ (ih h)

theorem addItemMerge_mem_new {pp : Nat} {pn : String} {pid q : Nat}
    {items : List CartItem}
    (h : items.find? (fun it => it.productId == pid) = none) :
    ({ productId := pid, name := pn, price := pp, quantity := q,
       totalPrice := pp * q } : CartItem) ∈ addItemMerge pp pn pid q items := by
  induction items with
  | nil => simp [addItemMerge]
  | cons it rest ih =>
    simp only [List.find?_eq_none] at h
    have hx : ¬(it.productId == pid) = true := h it (List.mem_cons_self _ _)
    have hx' : (it.productId == pid) = false := Bool.eq_false_iff.mpr hx
    simp only [addItemMerge, hx', Bool.false_eq_true, if_false]
    refine List.mem_cons_of_mem _ (ih ?_)
    exact List.find?_eq_none.mpr (fun x hx2 => h x (List.mem_cons_of_mem _ hx2))

theorem addItemMerge_pids {pp : Nat} {pn : String} {pid q : Nat} :
    ∀ items : List CartItem,
      (addItemMerge pp pn pid q items).map (fun it => it.productId) =
        if items.any (fun it => it.productId == pid) then
          items.map (fun it => it.productId)
        else items.map (fun it => it.productId) ++ [pid] := by
  intro items
  induction items with
  | nil => simp [addItemMerge]
  | cons it rest ih =>
    by_cases hx : (it.productId == pid) = true
    · simp [addItemMerge, hx, List.any_cons]
    · have hx' : (it.productId == pid) = false := Bool.eq_false_iff.mpr hx
      simp only [addItemMerge, hx', Bool.false_eq_true, if_false, List.map_cons,
        List.any_cons, Bool.false_or, ih]
      split
      · rfl
      · rfl

theorem addItemMerge_mem_char {pp : Nat} {pn : String} {pid q : Nat} :
    ∀ {items : List CartItem},
      (items.map (fun it => it.productId)).Nodup →
      ∀ x ∈ addItemMerge pp pn pid q items,
        (x ∈ items ∧ x.productId ≠ pid)
        ∨ (x.productId = pid ∧ x.quantity =
            (match items.find? (fun it => it.productId == pid) with
             | some it₀ => it₀.quantity
             | none => 0) + q) := by
  intro items
  induction items with
  | nil =>
    intro _ x hx
    simp only [addItemMerge, List.mem_singleton] at hx
    subst hx
    right
    simp
  | cons it rest ih =>
    intro hnd x hx
    rw [List.map_cons] at hnd
    obtain ⟨hhead, hrest⟩ := List.nodup_cons.mp hnd
    by_cases hit : (it.productId == pid) = true
    · have hfind : List.find? (fun r => r.productId == pid) (it :: rest) = some it :=
        List.find?_cons_of_pos _ hit
    -- merged at the head
      simp only [addItemMerge, hit, if_true] at hx
      rcases List.mem_cons.mp hx with h1 | h2
      · subst h1
        right
        rw [hfind]
        exact ⟨by simpa using hit, rfl⟩
      · left
        refine ⟨List.mem_cons_of_mem _ h2, ?_⟩
        intro hxe
        have hpid : it.productId = pid := by simpa using hit
        have : x.productId ∈ rest.map (fun r => r.productId) :=
          List.mem_map_of_mem _ h2
        rw [hxe, ← hpid] at this
        exact hhead this
    · have hit' : (it.productId == pid) = false := Bool.eq_false_iff.mpr hit
      have hfind : List.find? (fun r => r.productId == pid) (it :: rest) =
          List.find? (fun r => r.productId == pid) rest :=
        List.find?_cons_of_neg _ hit
      simp only [addItemMerge, hit', Bool.false_eq_true, if_false] at hx
      rcases List.mem_cons.mp hx with h1 | h2
      · subst h1
        left
        exact ⟨List.mem_cons_self _ _, by simpa using hit⟩
      · rcases ih hrest x h2 with ⟨hmem, hne⟩ | ⟨hpe, hqe⟩
        · exact Or.inl ⟨List.mem_cons_of_mem _ hmem, hne⟩
        · right
          rw [hfind]
          exact ⟨hpe, hqe⟩

theorem catalogNodup_unique {catalog : List Product}
    (hcat : (catalog.map (fun x => x.pid)).Nodup) {p₁ p₂ : Product}
    (h₁ : p₁ ∈ catalog) (h₂ : p₂ ∈ catalog) (hpid : p₁.pid = p₂.pid) : p₁ = p₂ :=
  List.inj_on_of_nodup_map hcat h₁ h₂ hpid

theorem mem_of_tripleMap_eq {l₁ l₂ : List CartItem}
    (h : l₁.map (fun it => (it.productId, it.quantity, it.name)) =
      l₂.map (fun it => (it.productId, it.quantity, it.name)))
    {x : CartItem} (hx : x ∈ l₂) :
    ∃ y ∈ l₁, y.productId = x.productId ∧ y.quantity = x.quantity := by
  have hm : (x.productId, x.quantity, x.name) ∈
      l₁.map (fun it => (it.productId, it.quantity, it.name)) := by
    rw [h]
    exact List.mem_map_of_mem _ hx
  simp only [List.mem_map] at hm
  obtain ⟨y, hy, he⟩ := hm
  have h1 : y.productId = x.productId := congrArg Prod.fst he
  have h2 : y.quantity = x.quantity := by
    have h3 := congrArg (fun z : Nat × Nat × String => z.2.1) he
    simpa using h3
  exact ⟨y, hy, h1, h2⟩

/-- Claim C3 as amended.  With a positive requested quantity, an
available product, a duplicate-free catalog and cart, and every other
cart line still valid against the catalog: a requested quantity beyond
stock fails with the insufficient-stock BadRequest; a merged
cumulative quantity beyond stock fails, but with the generic wrapped
BadRequest "Failed to add item to cart" (the insufficient-stock cause
is raised inside the save hook as a plain error and replaced); and
whenever the cumulative quantity is within stock the call succeeds. -/
theorem addItem_stock_behavior (db : DB) (uid pid : Nat) (q : Int) (p : Product)
    (hq : 0 < q) (hp : availableFind db.catalog pid = some p)
    (hcat : (db.catalog.map (fun x => x.pid)).Nodup)
    (hnd : ((usedCart db uid).items.map (fun it => it.productId)).Nodup)
    (hothers : ∀ it ∈ (usedCart db uid).items, it.productId ≠ pid →
      it.quantity ≠ 0 ∧ ∃ r, availableFind db.catalog it.productId = some r ∧
        it.quantity ≤ r.stock) :
    (p.stock < q.toNat →
      addItemToCart db uid pid q uid =
        (.error (.badRequest ("Insufficient stock for product " ++ p.name)), db))
    ∧ (q.toNat ≤ p.stock → p.stock < cumQty db uid pid q →
      addItemToCart db uid pid q uid =
        (.error (.badRequest "Failed to add item to cart"), db))
    ∧ (cumQty db uid pid q ≤ p.stock →
      ∃ saved db', addItemToCart db uid pid q uid = (.ok saved, db')) := by
  have hq' : ¬(q ≤ 0) := not_le.mpr hq
  have hself : (uid != uid) = false := by simp
  refine ⟨?_, ?_, ?_⟩
  · intro hlt
    simp [addItemToCart, hq', hself, addItemToCartTx, hp, hlt, wrapTx]
  · intro hle hcum
    have hns : ¬(p.stock < q.toNat) := Nat.not_lt.mpr hle
    cases hfind : (usedCart db uid).items.find? (fun it => it.productId == pid) with
    | none =>
      exfalso
      have hc0 : cumQty db uid pid q = q.toNat := by
        simp [cumQty, hfind]
      omega
    | some it₀ =>
      have hcum' : p.stock < it₀.quantity + q.toNat := by
        have hc0 : cumQty db uid pid q = it₀.quantity + q.toNat := by
          simp [cumQty, hfind]
        omega
      cases hsv : cartSave db.catalog (mergedCart db uid pid p q.toNat) with
      | ok saved =>
        exfalso
        obtain ⟨⟨hpr, -⟩, -, -, htr, -, -⟩ := cartSave_ok_spec hsv
        have hmem : ({ it₀ with
            quantity := it₀.quantity + q.toNat, price := p.price,
            totalPrice := p.price * (it₀.quantity + q.toNat) } : CartItem) ∈
            (mergedCart db uid pid p q.toNat).items :=
          addItemMerge_mem_of_find hfind
        obtain ⟨y, hy, hyp, hyq⟩ := mem_of_tripleMap_eq htr hmem
        obtain ⟨r, hrmem, hrpid, hract, hrdel, hrstock, hrprice, hrtp⟩ := hpr y hy
        have hit₀pid : it₀.productId = pid := by
          have h4 := List.find?_some hfind
          simpa using h4
        have hypid : y.productId = pid := by
          rw [hyp]
          exact hit₀pid
        obtain ⟨hpmem, hppid, -, -⟩ := availableFind_some hp
        have hrp : r = p :=
          catalogNodup_unique hcat hrmem hpmem
            (by rw [hrpid, hypid, hppid])
        rw [hrp] at hrstock
        have hyq' : y.quantity = it₀.quantity + q.toNat := by simpa using hyq
        omega
      | error msg =>
        simp only [mergedCart] at hsv
        simp [addItemToCart, hq', hself, addItemToCartTx, hp, hns, Cart.addItem,
          hsv, wrapTx]
  · intro hcum
    have hqpos : q.toNat ≠ 0 := by omega
    have hmq : ∀ x ∈ (mergedCart db uid pid p q.toNat).items,
        x.quantity ≠ 0 ∧ ∃ r, availableFind db.catalog x.productId = some r ∧
          x.quantity ≤ r.stock := by
      intro x hx
      rcases addItemMerge_mem_char hnd x hx with ⟨hmem, hne⟩ | ⟨hpe, hqe⟩
      · exact hothers x hmem hne
      · constructor
        · rw [hqe]
          omega
        · refine ⟨p, ?_, ?_⟩
          · rw [hpe]
            exact hp
          · rw [hqe]
            exact hcum
    have hmnd : ((mergedCart db uid pid p q.toNat).items.map
        (fun it => it.productId)).Nodup := by
      have hpids := @addItemMerge_pids p.price p.name pid q.toNat (usedCart db uid).items
      by_cases hany : ((usedCart db uid).items.any (fun it => it.productId == pid)) = true
      · rw [show (mergedCart db uid pid p q.toNat).items =
            addItemMerge p.price p.name pid q.toNat (usedCart db uid).items from rfl,
          hpids, if_pos hany]
        exact hnd
      · rw [show (mergedCart db uid pid p q.toNat).items =
            addItemMerge p.price p.name pid q.toNat (usedCart db uid).items from rfl,
          hpids, if_neg hany]
        rw [List.nodup_append]
        refine ⟨hnd, List.nodup_singleton _, ?_⟩
        intro a ha hb
        rw [List.mem_singleton] at hb
        simp only [List.mem_map] at ha
        obtain ⟨itx, hitx, hpidx⟩ := ha
        have hco : (usedCart db uid).items.any (fun it => it.productId == pid) = true := by
          simp only [List.any_eq_true]
          refine ⟨itx, hitx, ?_⟩
          simp [hpidx, hb]
        exact absurd hco hany
    obtain ⟨saved, hsv⟩ := cartSave_isOk hcat hmnd
      (fun x hx => (hmq x hx).1) (fun x hx => (hmq x hx).2)
    refine ⟨saved, { db with carts := replaceLive uid saved db.carts }, ?_⟩
    have hqle : q.toNat ≤ cumQty db uid pid q := by
      cases hfind : (usedCart db uid).items.find? (fun it => it.productId == pid) with
      | none => simp [cumQty, hfind]
      | some it₀ => simp [cumQty, hfind]
    have hns : ¬(p.stock < q.toNat) := by omega
    simp only [mergedCart] at hsv
    simp [addItemToCart, hq', hself, addItemToCartTx, hp, hns, Cart.addItem,
      hsv, wrapTx]

/-- Counterexample to C3 as stated: an existing, active product with
the cumulative quantity within its stock, yet addItemToCart fails,
because another line of the cart (a deactivated product) fails the
save hook's whole-cart revalidation; the surfaced error is the generic
BadRequest, not an insufficient-stock one. -/
theorem addItem_success_claim_false :
    availableFind dbC3.catalog 1 = some pC3a
    ∧ cumQty dbC3 1 1 1 ≤ pC3a.stock
    ∧ addItemToCart dbC3 1 1 1 1 =
        (.error (.badRequest "Failed to add item to cart"), dbC3) :=
  ⟨rfl, by decide, rfl⟩

/-- Witness for the amended C3 at a concrete store: stock 4, cart
already holding 3 units; requesting 99 fails with the
insufficient-stock BadRequest, requesting 2 (cumulative 5) fails with
the generic BadRequest, requesting 1 (cumulative 4) succeeds. -/
theorem addItem_stock_behavior_witness :
    addItemToCart dbC3w 1 1 99 1 =
      (.error (.badRequest "Insufficient stock for product W"), dbC3w)
    ∧ addItemToCart dbC3w 1 1 2 1 =
      (.error (.badRequest "Failed to add item to cart"), dbC3w)
    ∧ ∃ saved db', addItemToCart dbC3w 1 1 1 1 = (.ok saved, db') := by
  have hothers : ∀ it ∈ (usedCart dbC3w 1).items, it.productId ≠ 1 →
      it.quantity ≠ 0 ∧ ∃ r, availableFind dbC3w.catalog it.productId = some r ∧
        it.quantity ≤ r.stock := by
    intro it hit hne
    have hit' : it ∈ [(⟨1, "W", 5, 3, 15⟩ : CartItem)] := hit
    have heq : it = ⟨1, "W", 5, 3, 15⟩ := by simpa using hit'
    rw [heq] at hne
    exact absurd rfl hne
  refine ⟨?_, ?_, ?_⟩
  · exact (addItem_stock_behavior dbC3w 1 1 99 pC3w (by decide) (by rfl)
      (by decide) (by decide) hothers).1 (by decide)
  · exact (addItem_stock_behavior dbC3w 1 1 2 pC3w (by decide) (by rfl)
      (by decide) (by decide) hothers).2.1 (by decide) (by decide)
  · exact (addItem_stock_behavior dbC3w 1 1 1 pC3w (by decide) (by rfl)
      (by decide) (by decide) hothers).2.2 (by decide)

/-- Claim C4: adding a product already in the cart merges into the
existing line, with the quantity summed and the price refreshed to the
catalog's current price, rather than appending a second line; and no
successful cart write (add, update quantity, remove) can store two
lines with the same product id. -/
theorem addItem_merges_no_duplicates (db : DB) (uid pid : Nat) (q : Int)
    (p : Product) (c : Cart) (it₀ : CartItem)
    (hp : availableFind db.catalog pid = some p)
    (hcat : (db.catalog.map (fun x => x.pid)).Nodup)
    (hc : findLiveCart db.carts uid = some c)
    (hit : c.items.find? (fun it => it.productId == pid) = some it₀) :
    (∀ saved db', addItemToCart db uid pid q uid = (.ok saved, db') →
      (saved.items.map (fun it => it.productId)).Nodup
      ∧ saved.items.map (fun it => it.productId) =
          c.items.map (fun it => it.productId)
      ∧ ∃ it' ∈ saved.items, it'.productId = pid
          ∧ it'.quantity = it₀.quantity + q.toNat ∧ it'.price = p.price)
    ∧ (∀ saved db', updateCartItemQuantity db uid pid q uid = (.ok saved, db') →
        (saved.items.map (fun it => it.productId)).Nodup)
    ∧ (∀ saved db', removeItemFromCart db uid pid uid = (.ok saved, db') →
        (saved.items.map (fun it => it.productId)).Nodup) := by
  have huse : usedCart db uid = c := by
    simp [usedCart, hc]
  refine ⟨?_, ?_, ?_⟩
  · intro saved db' h
    obtain ⟨-, htx⟩ := addItemToCart_ok_inv h
    obtain ⟨p₂, hf2, -, hsave, -⟩ := addItemToCartTx_ok_inv htx
    have hp2 : p₂ = p := Option.some.inj (hf2.symm.trans hp)
    subst hp2
    obtain ⟨⟨hpr, -⟩, -, -, htr, hnodup, hpidseq⟩ := cartSave_ok_spec hsave
    have hfind : (usedCart db uid).items.find? (fun it => it.productId == pid) =
        some it₀ := by
      rw [huse]
      exact hit
    have hany : ((usedCart db uid).items.any (fun it => it.productId == pid)) = true := by
      simp only [List.any_eq_true]
      have hf1 := List.find?_some hfind
      exact ⟨it₀, List.mem_of_find?_eq_some hfind, hf1⟩
    have hmpids : (mergedCart db uid pid p₂ q.toNat).items.map
        (fun it => it.productId) = c.items.map (fun it => it.productId) := by
      have hpids := @addItemMerge_pids p₂.price p₂.name pid q.toNat (usedCart db uid).items
      rw [show (mergedCart db uid pid p₂ q.toNat).items =
          addItemMerge p₂.price p₂.name pid q.toNat (usedCart db uid).items from rfl,
        hpids, if_pos hany, huse]
    refine ⟨hnodup, ?_, ?_⟩
    · rw [hpidseq, hmpids]
    · have hmem : ({ it₀ with
          quantity := it₀.quantity + q.toNat, price := p₂.price,
          totalPrice := p₂.price * (it₀.quantity + q.toNat) } : CartItem) ∈
          (mergedCart db uid pid p₂ q.toNat).items :=
        addItemMerge_mem_of_find hfind
      obtain ⟨y, hy, hyp, hyq⟩ := mem_of_tripleMap_eq htr hmem
      have hit₀pid : it₀.productId = pid := by
        have h4 := List.find?_some hit
        simpa using h4
      have hypid : y.productId = pid := by
        rw [hyp]
        exact hit₀pid
      have hyq' : y.quantity = it₀.quantity + q.toNat := by simpa using hyq
      obtain ⟨r, hrmem, hrpid, -, -, -, hrprice, -⟩ := hpr y hy
      obtain ⟨hpmem, hppid, -, -⟩ := availableFind_some hp
      have hrp : r = p₂ :=
        catalogNodup_unique hcat hrmem hpmem (by rw [hrpid, hypid, hppid])
      refine ⟨y, hy, hypid, hyq', ?_⟩
      rw [hrprice, hrp]
  · intro saved db' h
    obtain ⟨-, htx⟩ := updateCartItemQuantity_ok_inv h
    obtain ⟨p₂, cart, -, -, -, hsave, -⟩ := updateCartItemQuantityTx_ok_inv htx
    exact (cartSave_ok_spec hsave).2.2.2.2.1
  · intro saved db' h
    have htx := removeItemFromCart_ok_inv h
    obtain ⟨cart, -, hsave, -⟩ := removeItemFromCartTx_ok_inv htx
    exact (cartSave_ok_spec hsave).2.2.2.2.1

/-- Witness for C4: quantity 2 at stale price 90 in the cart, adding 1
more yields one line of quantity 3 repriced at 100. -/
theorem addItem_merges_no_duplicates_witness :
    addItemToCart dbC4 1 1 1 1 = (.ok cartC4, dbC4')
    ∧ (cartC4.items.map (fun it => it.productId)).Nodup
    ∧ cartC4.items.map (fun it => it.productId) =
        cC4.items.map (fun it => it.productId)
    ∧ ∃ it' ∈ cartC4.items, it'.productId = 1
        ∧ it'.quantity = itC4.quantity + (1 : Int).toNat ∧ it'.price = pC4.price := by
  have h := (addItem_merges_no_duplicates dbC4 1 1 1 pC4 cC4 itC4 (by rfl) (by decide)
    (by rfl) (by rfl)).1 cartC4 dbC4' (by rfl)
  exact ⟨by rfl, h.1, h.2.1, h.2.2⟩

/-- Claim C9: every cart write revalidates the whole cart being saved:
a successful removeItemFromCart or updateCartItemQuantity leaves every
stored line backed by an active, non-deleted, sufficiently stocked
catalog product at its current price; consequently removeItemFromCart
fails whenever any remaining line's product is missing, inactive,
soft-deleted or under-stocked, a failure unrelated to the removed line
itself. -/
theorem cart_saves_revalidate_all_lines (db : DB) (uid pid : Nat) (q : Int) :
    (∀ saved db', removeItemFromCart db uid pid uid = (.ok saved, db') →
      cartPricedFrom db.catalog saved)
    ∧ (∀ saved db', updateCartItemQuantity db uid pid q uid = (.ok saved, db') →
      cartPricedFrom db.catalog saved)
    ∧ (∀ c, findLiveCart db.carts uid = some c →
        (∃ it ∈ removeFirst pid c.items, ∀ r ∈ db.catalog, r.pid = it.productId →
          ¬(r.isActive = true ∧ r.isDeleted = false ∧ it.quantity ≤ r.stock)) →
        (removeItemFromCart db uid pid uid).1.isOk = false) := by
  refine ⟨?_, ?_, ?_⟩
  · intro saved db' h
    have htx := removeItemFromCart_ok_inv h
    obtain ⟨cart, -, hsave, -⟩ := removeItemFromCartTx_ok_inv htx
    exact (cartSave_ok_spec hsave).1
  · intro saved db' h
    obtain ⟨-, htx⟩ := updateCartItemQuantity_ok_inv h
    obtain ⟨p, cart, -, -, -, hsave, -⟩ := updateCartItemQuantityTx_ok_inv htx
    exact (cartSave_ok_spec hsave).1
  · intro c hc hbad
    cases hres : removeItemFromCart db uid pid uid with
    | mk fst snd =>
      cases fst with
      | error e => rfl
      | ok saved =>
        exfalso
        have htx := removeItemFromCart_ok_inv hres
        obtain ⟨cart, hc2, hsave, -⟩ := removeItemFromCartTx_ok_inv htx
        have hcc : cart = c := Option.some.inj (hc2.symm.trans hc)
        subst hcc
        obtain ⟨⟨hpr, -⟩, -, -, htr, -, -⟩ := cartSave_ok_spec hsave
        obtain ⟨it, hitmem, hitbad⟩ := hbad
        obtain ⟨y, hy, hyp, hyq⟩ := mem_of_tripleMap_eq htr hitmem
        obtain ⟨r, hrmem, hrpid, hract, hrdel, hrstock, -, -⟩ := hpr y hy
        refine hitbad r hrmem (by rw [hrpid, hyp]) ⟨hract, hrdel, ?_⟩
        rw [← hyq]
        exact hrstock

/-- Witness for C9: removing the valid line for product 1 fails with
the generic wrapped BadRequest, because the remaining line references
the deactivated product 2. -/
theorem cart_saves_revalidate_all_lines_witness :
    (removeItemFromCart dbC9 1 1 1).1.isOk = false
    ∧ removeItemFromCart dbC9 1 1 1 =
        (.error (.badRequest "Failed to remove item from cart"), dbC9) := by
  refine ⟨?_, by rfl⟩
  exact (cart_saves_revalidate_all_lines dbC9 1 1 1).2.2
    ⟨1, [⟨1, "A", 5, 1, 5⟩, ⟨2, "B", 3, 1, 3⟩], 8, false⟩ (by rfl) (by decide)
